import Mathlib

/-!
Shallow embedding of the alice-skill request core: the command dispatcher
(`webhook` in `cmd/skill/app.go`) and the batched persistence worker
(`flushMessages` in `cmd/skill/app.go`), together with the store contract
from the `store` package.

External collaborators (the store, the utterance parser, the clock and
timezone database) are modelled as oracles passed in as parameters, exactly
as the spec treats them: the dispatcher observes only their results.
Store calls made by the dispatcher are recorded in an explicit trace so
that claims about which store operations are (not) attempted are statable.
A Go out-of-range slice access is modelled by the distinguished outcome
`HStatus.panicked`.
-/

namespace AliceSkill

/-- Message errors: the store package distinguishes the sentinel
`ErrConflict` (`errors.Is(err, store.ErrConflict)`) from every other
error (`part_000`, `var ErrConflict = errors.New("data conflict")`). -/
inductive StoreErr where
  | conflict
  | generic
deriving DecidableEq, Repr

/-- `store.Message` (`part_000`): ID int64, Sender, Recepient string,
Time time.Time (modelled as an abstract instant `Nat`), Payload string. -/
structure Message where
  id : Int
  sender : String
  recepient : String
  time : Nat
  payload : String
deriving DecidableEq, Repr

/-- One store-interface invocation, with its arguments: the observable
trace of the dispatcher's interaction with `store.Store` (`part_000`). -/
inductive StoreCall where
  | findRecipient (username : String)
  | listMessages (userID : String)
  | getMessage (id : Int)
  | saveMessages (messages : List Message)
  | registerUser (userID : String) (username : String)
deriving DecidableEq, Repr

/-- The `store.Store` interface (`part_000`), as a record of pure oracles:
each method's result for given arguments. `Except StoreErr α` models
`(α, error)` with a nil/non-nil error, and `StoreErr.conflict` the case
`errors.Is(err, store.ErrConflict)`. -/
structure Store where
  findRecipient : String → Except StoreErr String
  listMessages : String → Except StoreErr (List Message)
  getMessage : Int → Except StoreErr Message
  saveMessages : List Message → Except StoreErr Unit
  registerUser : String → String → Except StoreErr Unit

/-- The external utterance parser (`internal/logger/services/parser`),
treated by the spec as a pure external function: `ParseSendCommand`
returns (recipient username, message text), `ParseReadCommand` a message
index (a Go `int`, so possibly negative), `ParseRegisterCommand` the
desired username. -/
structure CmdParser where
  parseSendCommand : String → String × String
  parseReadCommand : String → Int
  parseRegisterCommand : String → String

/-- Ambient time facilities of `webhook`: `now` is the abstract instant
`time.Now()`; `clock tz` models `time.LoadLocation(tz)` followed by
`time.Now().In(loc).Clock()` — `none` when `LoadLocation` fails (invalid
timezone), otherwise `some (hour, minute)` in that timezone. -/
structure Env where
  now : Nat
  clock : String → Option (Nat × Nat)

/-- `models.Request`, restricted to the fields `webhook` reads:
`Request.Type`, `Request.Command`, `Session.New`, `Session.User.UserID`,
`Timezone`. -/
structure Request where
  typ : String
  command : String
  sessionNew : Bool
  userID : String
  timezone : String
deriving DecidableEq, Repr

/-- Modelled from the spec: the single supported utterance type tag of the
`models` package (not under `src/`); the calibration test fixture posts
`"type": "SimpleUtterance"` and the spec names one recognized type. -/
def TypeSimpleUtterance : String := "SimpleUtterance"

/-- Outcome of one `webhook` invocation, as visible on the wire:
the HTTP status written (non-200 early returns), an OK response carrying
the reply text, or a Go runtime panic from an out-of-range slice index. -/
inductive HStatus where
  | methodNotAllowed
  | internalServerError
  | unprocessableEntity
  | badRequest
  | ok (text : String)
  | panicked
deriving DecidableEq, Repr

/-- Everything observable about one `webhook` invocation: its outcome, the
ordered trace of store calls it made, and the messages it sent into
`msgChan` (the worker queue). -/
structure WebhookOut where
  status : HStatus
  calls : List StoreCall
  enqueued : List Message
deriving DecidableEq, Repr

/-- `strings.HasPrefix`, char-wise on the decoded text (equivalent to Go's
byte-wise check on valid UTF-8). -/
def cmdHasPref (s pre : String) : Bool := pre.data.isPrefixOf s.data

/-- The `case strings.HasPrefix(req.Request.Command, "Отправь")` branch of
`webhook` (`app.go:67-88`): parse, resolve the recipient via
`FindRecipient`, and on success enqueue one message built from the
caller's user ID, the resolved recipient, `time.Now()` and the parsed
text, replying with the fixed confirmation. -/
def handleSend (st : Store) (p : CmdParser) (env : Env) (req : Request) : WebhookOut :=
  let pr := p.parseSendCommand req.command
  let username := pr.1
  let message := pr.2
  match st.findRecipient username with
  | .error _ =>
      ⟨.internalServerError, [.findRecipient username], []⟩
  | .ok recipientID =>
      ⟨.ok "Сообщение успешно отправлено",
       [.findRecipient username],
       [{ id := 0, sender := req.userID, recepient := recipientID,
          time := env.now, payload := message }]⟩

/-- `fmt.Sprintf("Сообщение от %s, отправлено %s: %s", ...)` rendering of a
fetched message (`app.go:117`). -/
def renderMessage (m : Message) : String :=
  "Сообщение от " ++ m.sender ++ ", отправлено " ++ toString m.time ++ ": " ++ m.payload

/-- The `case strings.HasPrefix(req.Request.Command, "Прочитай")` branch of
`webhook` (`app.go:91-119`): list the caller's messages; the code replies
"Такого сообщения не существует." only when `len(messages) < messageIndex`,
and otherwise evaluates `messages[messageIndex]` — an out-of-range access
(Go panic) when `messageIndex == len(messages)` or `messageIndex < 0` —
then fetches that message by ID and renders it. -/
def handleRead (st : Store) (p : CmdParser) (req : Request) : WebhookOut :=
  let messageIndex := p.parseReadCommand req.command
  match st.listMessages req.userID with
  | .error _ =>
      ⟨.internalServerError, [.listMessages req.userID], []⟩
  | .ok messages =>
      if (messages.length : Int) < messageIndex then
        ⟨.ok "Такого сообщения не существует.", [.listMessages req.userID], []⟩
      else if messageIndex < 0 then
        ⟨.panicked, [.listMessages req.userID], []⟩
      else
        match messages.get? messageIndex.toNat with
        | none =>
            ⟨.panicked, [.listMessages req.userID], []⟩
        | some m0 =>
            match st.getMessage m0.id with
            | .error _ =>
                ⟨.internalServerError,
                 [.listMessages req.userID, .getMessage m0.id], []⟩
            | .ok message =>
                ⟨.ok (renderMessage message),
                 [.listMessages req.userID, .getMessage m0.id], []⟩

/-- The `case strings.HasPrefix(req.Request.Command, "Зарегистрируй")`
branch of `webhook` (`app.go:122-141`): register the parsed username; a
non-conflict error is an internal server error, `store.ErrConflict` yields
the fixed "name taken" text, success confirms the username. -/
def handleRegister (st : Store) (p : CmdParser) (req : Request) : WebhookOut :=
  let username := p.parseRegisterCommand req.command
  match st.registerUser req.userID username with
  | .error .generic =>
      ⟨.internalServerError, [.registerUser req.userID username], []⟩
  | .error .conflict =>
      ⟨.ok "Извините, такое имя уже занято. Попробуйте другое.",
       [.registerUser req.userID username], []⟩
  | .ok _ =>
      ⟨.ok ("Вы успешно зарегистрированы под именем " ++ username),
       [.registerUser req.userID username], []⟩

/-- The message-count reply text of the default branch (`app.go:152-155`):
"Для вас нет новых сообщений." or the count. -/
def countText (messages : List Message) : String :=
  if messages.length > 0 then
    "Для вас " ++ toString messages.length ++ " новых сообщений."
  else
    "Для вас нет новых сообщений."

/-- The `default` branch of `webhook` (`app.go:144-173`): list the caller's
messages and state their count; when `req.Session.New`, additionally load
the request's timezone — rejecting with StatusBadRequest when invalid —
and prepend the hour/minute greeting. -/
def handleDefault (st : Store) (env : Env) (req : Request) : WebhookOut :=
  match st.listMessages req.userID with
  | .error _ =>
      ⟨.internalServerError, [.listMessages req.userID], []⟩
  | .ok messages =>
      let text := countText messages
      if req.sessionNew then
        match env.clock req.timezone with
        | none =>
            ⟨.badRequest, [.listMessages req.userID], []⟩
        | some hm =>
            ⟨.ok ("Точное время " ++ toString hm.1 ++ " часов, " ++
                  toString hm.2 ++ " минут. " ++ text),
             [.listMessages req.userID], []⟩
      else
        ⟨.ok text, [.listMessages req.userID], []⟩

/-- `(*app).webhook` (`app.go:38-193`): reject non-POST with
StatusMethodNotAllowed; a JSON decode failure (`body = none`) with
StatusInternalServerError; a type other than `models.TypeSimpleUtterance`
with StatusUnprocessableEntity; then dispatch on the command prefix in
source order (send, read, register, default). -/
def webhook (st : Store) (p : CmdParser) (env : Env)
    (method : String) (body : Option Request) : WebhookOut :=
  if method ≠ "POST" then ⟨.methodNotAllowed, [], []⟩
  else
    match body with
    | none => ⟨.internalServerError, [], []⟩
    | some req =>
        if req.typ ≠ TypeSimpleUtterance then ⟨.unprocessableEntity, [], []⟩
        else if cmdHasPref req.command "Отправь" then handleSend st p env req
        else if cmdHasPref req.command "Прочитай" then handleRead st p req
        else if cmdHasPref req.command "Зарегистрируй" then handleRegister st p req
        else handleDefault st env req

/-- One iteration of the `select` loop in `flushMessages` observes either a
message arriving on `msgChan` or a ticker firing. -/
inductive WorkerEvent where
  | recv (msg : Message)
  | tick
deriving DecidableEq, Repr

/-- One iteration of `(*app).flushMessages` (`app.go:196-223`) from pending
batch `messages`: on a received message, append it; on a tick, skip when
the batch is empty, otherwise attempt `SaveMessages` with the whole batch —
clearing it on success (`messages = nil`) and keeping it untouched on
failure. Returns the new batch and the `SaveMessages` argument when a save
was attempted (`none` = no store write this iteration). -/
def workerStep (st : Store) (messages : List Message) :
    WorkerEvent → List Message × Option (List Message)
  | .recv msg => (messages ++ [msg], none)
  | .tick =>
      if messages.isEmpty then (messages, none)
      else
        match st.saveMessages messages with
        | .error _ => (messages, some messages)
        | .ok _ => ([], some messages)

/-- Run the worker loop over a sequence of observed events, collecting the
arguments of every attempted `SaveMessages` call in order. -/
def workerRun (st : Store) (messages : List Message) :
    List WorkerEvent → List Message × List (List Message)
  | [] => (messages, [])
  | e :: es =>
      let s1 := workerStep st messages e
      let s2 := workerRun st s1.1 es
      (s2.1, s1.2.toList ++ s2.2)

/-! ### Concrete fixtures used by witnesses and counterexamples -/

/-- A concrete message fixture. -/
def msgA : Message :=
  { id := 1, sender := "s1", recepient := "r1", time := 5, payload := "hello" }

/-- A second concrete message fixture. -/
def msgB : Message :=
  { id := 2, sender := "s2", recepient := "r2", time := 6, payload := "world" }

/-- Fixture store: empty listings, failing bulk save and message fetch. -/
def stSaveFail : Store :=
  { findRecipient := fun _ => .ok "rid-1"
  , listMessages := fun _ => .ok []
  , getMessage := fun _ => .error .generic
  , saveMessages := fun _ => .error .generic
  , registerUser := fun _ _ => .ok () }

/-- Fixture store: every operation succeeds, listings hold one message. -/
def stAllOk : Store :=
  { findRecipient := fun _ => .ok "rid-9"
  , listMessages := fun _ => .ok [msgA]
  , getMessage := fun _ => .ok msgA
  , saveMessages := fun _ => .ok ()
  , registerUser := fun _ _ => .ok () }

/-- Fixture store whose user registration reports a name conflict. -/
def stConflict : Store :=
  { findRecipient := fun _ => .error .generic
  , listMessages := fun _ => .ok []
  , getMessage := fun _ => .error .generic
  , saveMessages := fun _ => .ok ()
  , registerUser := fun _ _ => .error .conflict }

/-! ### Worker lemmas -/

/-- Receiving a sequence of messages only appends them to the pending
batch, in arrival order, performing no store write. -/
theorem workerRun_recvs (st : Store) (msgs : List Message) (b : List Message)
    (es : List WorkerEvent) :
    workerRun st b (msgs.map WorkerEvent.recv ++ es) = workerRun st (b ++ msgs) es := by
  induction msgs generalizing b with
  | nil => simp [workerRun]
  | cons m ms ih =>
      simp only [List.map_cons, List.cons_append, workerRun, workerStep, List.append_eq]
      rw [ih]
      simp [List.append_assoc]

/-- C8: at a timer firing with an empty pending batch the worker performs
no store write (`SaveMessages` is not attempted) and keeps collecting with
the batch still empty. -/
theorem C8_empty_batch_skip (st : Store) :
    workerStep st [] WorkerEvent.tick = ([], none) := rfl

/-- C3: when the bulk write of a nonempty pending batch `b` fails, the
batch after the attempt is exactly `b` (nothing cleared or dropped), and
the next timer firing's attempt contains the very same messages plus any
received since, in order. -/
theorem C3_flush_failure_atomic (st : Store) (b : List Message) (e : StoreErr)
    (hb : b ≠ []) (hfail : st.saveMessages b = .error e) (newMsgs : List Message) :
    workerStep st b WorkerEvent.tick = (b, some b) ∧
    (workerRun st b
        (WorkerEvent.tick :: (newMsgs.map WorkerEvent.recv ++ [WorkerEvent.tick]))).2
      = [b, b ++ newMsgs] := by
  obtain ⟨m, ms, rfl⟩ : ∃ m ms, b = m :: ms := by
    cases b with
    | nil => exact absurd rfl hb
    | cons m ms => exact ⟨m, ms, rfl⟩
  have hstep : workerStep st (m :: ms) WorkerEvent.tick = (m :: ms, some (m :: ms)) := by
    simp [workerStep, hfail]
  refine ⟨hstep, ?_⟩
  simp only [workerRun, hstep]
  rw [workerRun_recvs]
  simp only [workerRun, workerStep, List.cons_append, List.isEmpty_cons]
  cases hs : st.saveMessages (m :: (ms ++ newMsgs)) <;> simp [hs]

/-- C3 witness: a failed flush of `[msgA]` keeps the batch at `[msgA]`, and
after `msgB` arrives the next firing attempts `[msgA, msgB]`. -/
theorem C3_flush_failure_atomic_witness :
    workerStep stSaveFail [msgA] WorkerEvent.tick = ([msgA], some [msgA]) ∧
    (workerRun stSaveFail [msgA]
        (WorkerEvent.tick :: ([msgB].map WorkerEvent.recv ++ [WorkerEvent.tick]))).2
      = [[msgA], [msgA, msgB]] := by
  have h := C3_flush_failure_atomic stSaveFail [msgA] .generic (by simp) rfl [msgB]
  simpa using h

/-- C4: starting from an empty batch, enqueueing the messages `msgs`
(N > 0 of them) and then firing the timer attempts exactly one bulk write
whose argument is all of `msgs` in enqueue order, and if that write
succeeds the pending batch is cleared entirely. -/
theorem C4_enqueue_then_flush (st : Store) (msgs : List Message) (h : msgs ≠ []) :
    (workerRun st [] (msgs.map WorkerEvent.recv ++ [WorkerEvent.tick])).2 = [msgs] ∧
    (st.saveMessages msgs = .ok () →
      (workerRun st [] (msgs.map WorkerEvent.recv ++ [WorkerEvent.tick])).1 = []) := by
  rw [workerRun_recvs]
  simp only [List.nil_append]
  cases msgs with
  | nil => exact absurd rfl h
  | cons m ms =>
      simp only [workerRun, workerStep, List.isEmpty_cons]
      cases hs : st.saveMessages (m :: ms) <;> simp [hs]

/-- C4 witness: enqueueing `[msgA, msgB]` then firing the timer against a
store whose save succeeds attempts the single bulk write `[msgA, msgB]`
and clears the batch. -/
theorem C4_enqueue_then_flush_witness :
    (workerRun stAllOk []
        ([msgA, msgB].map WorkerEvent.recv ++ [WorkerEvent.tick])).2 = [[msgA, msgB]] ∧
    (workerRun stAllOk []
        ([msgA, msgB].map WorkerEvent.recv ++ [WorkerEvent.tick])).1 = [] := by
  have h := C4_enqueue_then_flush stAllOk [msgA, msgB] (by simp)
  exact ⟨h.1, h.2 rfl⟩

/-! ### Dispatcher fixtures -/

/-- Fixture parser oracle. -/
def prs : CmdParser :=
  { parseSendCommand := fun _ => ("vasya", "привет")
  , parseReadCommand := fun _ => 0
  , parseRegisterCommand := fun _ => "petya" }

/-- Fixture environment whose timezone database rejects every name. -/
def envNone : Env := { now := 100, clock := fun _ => none }

/-- Fixture environment whose clock reads 7:40 in every timezone. -/
def envClock : Env := { now := 100, clock := fun _ => some (7, 40) }

/-- Fixture send request. -/
def reqSend : Request :=
  { typ := "SimpleUtterance", command := "Отправь вася привет",
    sessionNew := false, userID := "u1", timezone := "UTC" }

/-- Fixture read request; the fixture parser reads it as index 0. -/
def reqRead0 : Request :=
  { typ := "SimpleUtterance", command := "Прочитай 1",
    sessionNew := false, userID := "u1", timezone := "UTC" }

/-- Fixture register request. -/
def reqReg : Request :=
  { typ := "SimpleUtterance", command := "Зарегистрируй петя",
    sessionNew := false, userID := "u1", timezone := "UTC" }

/-- Fixture first-turn default-path request. -/
def reqDefNew : Request :=
  { typ := "SimpleUtterance", command := "что нового",
    sessionNew := true, userID := "u1", timezone := "Bad/Zone" }

/-! ### Dispatcher claims -/

/-- C1: the read path's bound check `len(messages) < messageIndex` is off
by one. With K = 0 listed messages a read of index 0 does not produce the
fixed "Такого сообщения не существует." reply: the handler evaluates
`messages[0]` on the empty list, an out-of-range access (Go panic). -/
theorem C1_read_boundary_code_eval :
    webhook stSaveFail prs envNone "POST" (some reqRead0) =
      ⟨.panicked, [.listMessages "u1"], []⟩ ∧
    (webhook stSaveFail prs envNone "POST" (some reqRead0)).status ≠
      HStatus.ok "Такого сообщения не существует." := by
  constructor <;> decide

/-- C2 counterexample: for this concrete first-turn default-path request
with an invalid timezone the status is indeed "bad request", but the store
IS interacted with before the rejection — the call trace is nonempty
(`ListMessages` runs before the timezone check), refuting "no store
interaction is attempted before that rejection". -/
theorem C2_counterexample :
    (webhook stSaveFail prs envNone "POST" (some reqDefNew)).status =
      HStatus.badRequest ∧
    (webhook stSaveFail prs envNone "POST" (some reqDefNew)).calls ≠ [] := by
  constructor <;> decide

/-- C2 (amended): on a first-turn default-path request with an invalid
timezone, `ListMessages` is attempted first; when it succeeds the response
status is "bad request" and the call trace is exactly that one listing
call. -/
theorem C2_badRequest_after_listing (st : Store) (p : CmdParser) (env : Env)
    (req : Request) (msgs : List Message)
    (htyp : req.typ = TypeSimpleUtterance)
    (h1 : cmdHasPref req.command "Отправь" = false)
    (h2 : cmdHasPref req.command "Прочитай" = false)
    (h3 : cmdHasPref req.command "Зарегистрируй" = false)
    (hnew : req.sessionNew = true)
    (htz : env.clock req.timezone = none)
    (hls : st.listMessages req.userID = .ok msgs) :
    webhook st p env "POST" (some req) =
      ⟨.badRequest, [.listMessages req.userID], []⟩ := by
  simp [webhook, htyp, h1, h2, h3, handleDefault, hls, hnew, htz]

/-- C2 witness: the amended statement at the concrete fixture request. -/
theorem C2_badRequest_after_listing_witness :
    webhook stSaveFail prs envNone "POST" (some reqDefNew) =
      ⟨.badRequest, [.listMessages "u1"], []⟩ :=
  C2_badRequest_after_listing stSaveFail prs envNone reqDefNew []
    rfl (by decide) (by decide) (by decide) rfl rfl rfl

/-- C5: on a send command, when `FindRecipient` resolves the parsed
username the dispatcher enqueues exactly one message — sender the caller's
user ID, recipient the resolved ID, payload the parsed text — and replies
with the fixed confirmation; when resolution fails the status is internal
error and nothing is enqueued. -/
theorem C5_send_path (st : Store) (p : CmdParser) (env : Env) (req : Request)
    (htyp : req.typ = TypeSimpleUtterance)
    (hcmd : cmdHasPref req.command "Отправь" = true) :
    (∀ rid, st.findRecipient (p.parseSendCommand req.command).1 = .ok rid →
        webhook st p env "POST" (some req) =
          ⟨.ok "Сообщение успешно отправлено",
           [.findRecipient (p.parseSendCommand req.command).1],
           [{ id := 0, sender := req.userID, recepient := rid,
              time := env.now, payload := (p.parseSendCommand req.command).2 }]⟩) ∧
    (∀ e, st.findRecipient (p.parseSendCommand req.command).1 = .error e →
        webhook st p env "POST" (some req) =
          ⟨.internalServerError,
           [.findRecipient (p.parseSendCommand req.command).1], []⟩) := by
  constructor
  · intro rid hfr
    simp [webhook, htyp, hcmd, handleSend, hfr]
  · intro e hfr
    simp [webhook, htyp, hcmd, handleSend, hfr]

/-- C5 witness: the fixture send request against a store resolving the
recipient to "rid-9" enqueues that one message and confirms. -/
theorem C5_send_path_witness :
    webhook stAllOk prs envNone "POST" (some reqSend) =
      ⟨.ok "Сообщение успешно отправлено", [.findRecipient "vasya"],
       [{ id := 0, sender := "u1", recepient := "rid-9",
          time := 100, payload := "привет" }]⟩ :=
  (C5_send_path stAllOk prs envNone reqSend rfl (by decide)).1 "rid-9" rfl

/-- C6: on a register command, a `store.ErrConflict` from `RegisterUser`
yields the fixed "name taken" reply with OK status, any other error yields
internal server error, and success confirms the chosen username. -/
theorem C6_register_conflict (st : Store) (p : CmdParser) (env : Env)
    (req : Request)
    (htyp : req.typ = TypeSimpleUtterance)
    (h1 : cmdHasPref req.command "Отправь" = false)
    (h2 : cmdHasPref req.command "Прочитай" = false)
    (h3 : cmdHasPref req.command "Зарегистрируй" = true) :
    (st.registerUser req.userID (p.parseRegisterCommand req.command) =
        .error .conflict →
      webhook st p env "POST" (some req) =
        ⟨.ok "Извините, такое имя уже занято. Попробуйте другое.",
         [.registerUser req.userID (p.parseRegisterCommand req.command)], []⟩) ∧
    (st.registerUser req.userID (p.parseRegisterCommand req.command) =
        .error .generic →
      webhook st p env "POST" (some req) =
        ⟨.internalServerError,
         [.registerUser req.userID (p.parseRegisterCommand req.command)], []⟩) ∧
    (st.registerUser req.userID (p.parseRegisterCommand req.command) = .ok () →
      webhook st p env "POST" (some req) =
        ⟨.ok ("Вы успешно зарегистрированы под именем " ++
              p.parseRegisterCommand req.command),
         [.registerUser req.userID (p.parseRegisterCommand req.command)], []⟩) := by
  refine ⟨fun hres => ?_, fun hres => ?_, fun hres => ?_⟩ <;>
    simp [webhook, htyp, h1, h2, h3, handleRegister, hres]

/-- C6 witness: the fixture register request against a store reporting a
name conflict replies with the fixed "name taken" text and OK status. -/
theorem C6_register_conflict_witness :
    webhook stConflict prs envNone "POST" (some reqReg) =
      ⟨.ok "Извините, такое имя уже занято. Попробуйте другое.",
       [.registerUser "u1" "petya"], []⟩ :=
  (C6_register_conflict stConflict prs envNone reqReg rfl
    (by decide) (by decide) (by decide)).1 rfl

/-- C7: a first-turn default-path request with a valid timezone replies
with the hour/minute greeting for the clock reading in that timezone,
followed by exactly the message-count text that the same request with
`session.new = false` produces. -/
theorem C7_first_turn_greeting (st : Store) (p : CmdParser) (env : Env)
    (req : Request) (msgs : List Message) (hr mi : Nat)
    (htyp : req.typ = TypeSimpleUtterance)
    (h1 : cmdHasPref req.command "Отправь" = false)
    (h2 : cmdHasPref req.command "Прочитай" = false)
    (h3 : cmdHasPref req.command "Зарегистрируй" = false)
    (hnew : req.sessionNew = true)
    (hclock : env.clock req.timezone = some (hr, mi))
    (hls : st.listMessages req.userID = .ok msgs) :
    webhook st p env "POST" (some req) =
      ⟨.ok ("Точное время " ++ toString hr ++ " часов, " ++ toString mi ++
            " минут. " ++ countText msgs),
       [.listMessages req.userID], []⟩ ∧
    webhook st p env "POST" (some { req with sessionNew := false }) =
      ⟨.ok (countText msgs), [.listMessages req.userID], []⟩ := by
  constructor
  · simp [webhook, htyp, h1, h2, h3, handleDefault, hls, hnew, hclock]
  · simp [webhook, htyp, h1, h2, h3, handleDefault, hls]

/-- C7 witness: the fixture first-turn request at clock reading 7:40 with
one pending message greets and then states the same count text as the
non-first-turn request. -/
theorem C7_first_turn_greeting_witness :
    webhook stAllOk prs envClock "POST" (some reqDefNew) =
      ⟨.ok ("Точное время 7 часов, 40 минут. " ++ countText [msgA]),
       [.listMessages "u1"], []⟩ ∧
    webhook stAllOk prs envClock "POST" (some { reqDefNew with sessionNew := false }) =
      ⟨.ok (countText [msgA]), [.listMessages "u1"], []⟩ :=
  C7_first_turn_greeting stAllOk prs envClock reqDefNew [msgA] 7 40
    rfl (by decide) (by decide) (by decide) rfl rfl rfl

/-! ### Handler shape lemmas: no branch of the dispatcher reaches the
"bad request" status except the default branch's timezone check, and no
branch ever issues a `SaveMessages` call. -/

theorem handleSend_shape (st : Store) (p : CmdParser) (env : Env) (req : Request) :
    (handleSend st p env req).status ≠ HStatus.badRequest ∧
    ∀ msgs, StoreCall.saveMessages msgs ∉ (handleSend st p env req).calls := by
  dsimp only [handleSend]
  cases st.findRecipient (p.parseSendCommand req.command).1 <;> simp

theorem handleRead_shape (st : Store) (p : CmdParser) (req : Request) :
    (handleRead st p req).status ≠ HStatus.badRequest ∧
    ∀ msgs, StoreCall.saveMessages msgs ∉ (handleRead st p req).calls := by
  dsimp only [handleRead]
  cases st.listMessages req.userID with
  | error e => simp
  | ok messages =>
      dsimp only
      by_cases hlt : (messages.length : Int) < p.parseReadCommand req.command
      · simp [hlt]
      · rw [if_neg hlt]
        by_cases hneg : p.parseReadCommand req.command < 0
        · simp [hneg]
        · rw [if_neg hneg]
          cases messages.get? (p.parseReadCommand req.command).toNat with
          | none => simp
          | some m0 => rcases h : st.getMessage m0.id with e | msg <;> simp [h]

theorem handleRegister_shape (st : Store) (p : CmdParser) (req : Request) :
    (handleRegister st p req).status ≠ HStatus.badRequest ∧
    ∀ msgs, StoreCall.saveMessages msgs ∉ (handleRegister st p req).calls := by
  dsimp only [handleRegister]
  cases st.registerUser req.userID (p.parseRegisterCommand req.command) with
  | error e => cases e <;> simp
  | ok u => simp

theorem handleDefault_no_save (st : Store) (env : Env) (req : Request) :
    ∀ msgs, StoreCall.saveMessages msgs ∉ (handleDefault st env req).calls := by
  dsimp only [handleDefault]
  cases st.listMessages req.userID with
  | error e => simp
  | ok messages =>
      cases hsn : req.sessionNew with
      | false => simp
      | true => cases env.clock req.timezone <;> simp

/-- C9: the send, read and register branches never consult the session's
first-turn flag, the request's timezone field, or the timezone/clock
oracle — the webhook result is unchanged under arbitrary replacement of
all three — and in particular their status is never "bad request". -/
theorem C9_prefix_paths_ignore_session (st : Store) (p : CmdParser) (env : Env)
    (c2 : String → Option (Nat × Nat)) (method : String) (req : Request)
    (b : Bool) (tz : String)
    (hmatch : cmdHasPref req.command "Отправь" = true ∨
              cmdHasPref req.command "Прочитай" = true ∨
              cmdHasPref req.command "Зарегистрируй" = true) :
    webhook st p { env with clock := c2 } method
        (some { req with sessionNew := b, timezone := tz })
      = webhook st p env method (some req) ∧
    (webhook st p env method (some req)).status ≠ HStatus.badRequest := by
  by_cases hm : method = "POST"
  · subst hm
    by_cases htyp : req.typ = TypeSimpleUtterance
    · cases hsend : cmdHasPref req.command "Отправь" with
      | true =>
          constructor
          · simp only [webhook, htyp, hsend]
            rfl
          · simpa [webhook, htyp, hsend] using (handleSend_shape st p env req).1
      | false =>
          cases hread : cmdHasPref req.command "Прочитай" with
          | true =>
              constructor
              · simp only [webhook, htyp, hsend, hread]
                rfl
              · simpa [webhook, htyp, hsend, hread] using (handleRead_shape st p req).1
          | false =>
              cases hreg : cmdHasPref req.command "Зарегистрируй" with
              | true =>
                  constructor
                  · simp only [webhook, htyp, hsend, hread, hreg]
                    rfl
                  · simpa [webhook, htyp, hsend, hread, hreg] using
                      (handleRegister_shape st p req).1
              | false =>
                  rcases hmatch with h | h | h <;> simp_all
    · simp [webhook, htyp]
  · simp [webhook, hm]

/-- C9 witness: a send command with `session.new = true` and an invalid
timezone replies exactly as without them and is not rejected with "bad
request". -/
theorem C9_prefix_paths_ignore_session_witness :
    webhook stAllOk prs { envNone with clock := fun _ => none } "POST"
        (some { reqSend with sessionNew := true, timezone := "Bad/Zone" })
      = webhook stAllOk prs envNone "POST" (some reqSend) ∧
    (webhook stAllOk prs envNone "POST" (some reqSend)).status ≠
      HStatus.badRequest :=
  C9_prefix_paths_ignore_session stAllOk prs envNone (fun _ => none) "POST"
    reqSend true "Bad/Zone" (Or.inl (by decide))

/-- C10: the request-handling path never performs a durable write — no
branch of `webhook` ever issues a `SaveMessages` call — and in the
worker's loop a `SaveMessages` attempt happens only on a timer firing and
only with the entire pending batch as its argument. -/
theorem C10_save_only_in_worker (st : Store) (p : CmdParser) (env : Env)
    (method : String) (body : Option Request) :
    (∀ msgs, StoreCall.saveMessages msgs ∉ (webhook st p env method body).calls) ∧
    (∀ batch ev arg, (workerStep st batch ev).2 = some arg →
        ev = WorkerEvent.tick ∧ arg = batch) := by
  constructor
  · intro msgs
    by_cases hm : method = "POST"
    · subst hm
      rcases body with _ | req
      · simp [webhook]
      · by_cases htyp : req.typ = TypeSimpleUtterance
        · cases hsend : cmdHasPref req.command "Отправь" with
          | true => simpa [webhook, htyp, hsend] using (handleSend_shape st p env req).2 msgs
          | false =>
              cases hread : cmdHasPref req.command "Прочитай" with
              | true =>
                  simpa [webhook, htyp, hsend, hread] using (handleRead_shape st p req).2 msgs
              | false =>
                  cases hreg : cmdHasPref req.command "Зарегистрируй" with
                  | true =>
                      simpa [webhook, htyp, hsend, hread, hreg] using
                        (handleRegister_shape st p req).2 msgs
                  | false =>
                      simpa [webhook, htyp, hsend, hread, hreg] using
                        handleDefault_no_save st env req msgs
        · simp [webhook, htyp]
    · simp [webhook, hm]
  · intro batch ev arg hsome
    cases ev with
    | recv m => simp [workerStep] at hsome
    | tick =>
        refine ⟨rfl, ?_⟩
        cases batch with
        | nil => simp [workerStep] at hsome
        | cons m ms =>
            rcases hs : st.saveMessages (m :: ms) with e | u <;>
              simp [workerStep, hs] at hsome <;> exact hsome.symm

/-- C10 witness: at the fixture send request the dispatcher's trace holds
no `SaveMessages` call, and a worker save attempt from batch `[msgA]` is a
tick flushing exactly `[msgA]`. -/
theorem C10_save_only_in_worker_witness :
    (StoreCall.saveMessages [] ∉
      (webhook stAllOk prs envNone "POST" (some reqSend)).calls) ∧
    (WorkerEvent.tick = WorkerEvent.tick ∧ [msgA] = [msgA]) :=
  have h := C10_save_only_in_worker stAllOk prs envNone "POST" (some reqSend)
  ⟨h.1 [], h.2 [msgA] WorkerEvent.tick [msgA] rfl⟩

end AliceSkill
